import Mathlib

/-!
Shallow embedding of the asynchronous job-orchestration subsystem of the
Financial Document Analysis API.

Embedded source (Python):
* `models.py`   — the `AnalysisTask`, `UserAnalysisHistory` and
  `AnalysisMetrics` tables (statuses are the plain strings
  `"pending" / "processing" / "completed" / "failed"`).
* `celery_app.py` — the Celery worker task
  `analyze_financial_document_task` and the soft/hard time-limit
  configuration.
* `main.py`     — the `/analyze` submission endpoint (`analyze_document`)
  and the `/tasks` listing endpoint (`list_tasks`).
* `manage_db.py` — the retention sweep `cleanup_old_tasks`.

Modelling conventions: timestamps are abstract `Nat` ticks (`datetime`
values produced by `datetime.utcnow()`); the analysis engine `run_crew`
is an external collaborator, so its outcome at a given invocation is a
parameter (`EngineOutcome`): it returns a result, raises an exception
(this includes Celery's `SoftTimeLimitExceeded`, which is an ordinary
exception raised inside the call), or the worker process is killed by
the hard time limit while the call runs.  The database session is a
`Database` value holding the three tables; a committed session state is
an explicit value.  Python's truthiness test `if status:` on an optional
string is modelled as: absent, or present and equal to `""`, is falsy.
-/

/-! ### Data model (`models.py`) -/

/-- The `analysis_tasks` table row (`models.py`, class `AnalysisTask`).
`duration_seconds` is the elapsed tick count computed at the terminal
transition. -/
structure AnalysisTask where
  id : String
  file_name : String
  file_path : Option String := none
  query : String
  status : String := "pending"
  analysis_result : Option String := none
  error_message : Option String := none
  created_at : Nat
  started_at : Option Nat := none
  completed_at : Option Nat := none
  duration_seconds : Option Nat := none
  celery_task_id : Option String := none
deriving Repr, DecidableEq

/-- The `user_analysis_history` table row (`models.py`,
class `UserAnalysisHistory`), restricted to the fields the embedded
operations read or write. -/
structure UserAnalysisHistory where
  id : String
  analysis_task_id : String
  document_name : String
  analysis_type : String := "investment"
deriving Repr, DecidableEq

/-- The `analysis_metrics` table row (`models.py`,
class `AnalysisMetrics`), restricted to the fields the embedded
operations read or write. -/
structure AnalysisMetrics where
  id : String
  analysis_task_id : String
deriving Repr, DecidableEq

/-- Committed persistent state: the three tables plus the set of stored
document files on disk (`data/…` paths). -/
structure Database where
  tasks : List AnalysisTask := []
  history : List UserAnalysisHistory := []
  metrics : List AnalysisMetrics := []
  files : List String := []
deriving Repr, DecidableEq

/-- `db.query(AnalysisTask).filter(AnalysisTask.id == task_id).first()`. -/
def findTask (tasks : List AnalysisTask) (task_id : String) : Option AnalysisTask :=
  tasks.find? (fun t => t.id == task_id)

/-- Committing a mutation of the row whose primary key is `r.id`
(the ORM updates that row in place). -/
def updateTask (tasks : List AnalysisTask) (r : AnalysisTask) : List AnalysisTask :=
  tasks.map (fun u => if u.id == r.id then r else u)

/-! ### Worker task (`celery_app.py`) -/

/-- `task_time_limit` from `celery_app.conf.update`: 30 minutes
(hard limit), in seconds. -/
def task_time_limit : Nat := 30 * 60

/-- `task_soft_time_limit` from `celery_app.conf.update`: 25 minutes
(soft limit), in seconds. -/
def task_soft_time_limit : Nat := 25 * 60

/-- Outcome of the single `run_crew(query, file_path)` invocation made by
the worker task.  `exc` covers every exception the call raises, including
`SoftTimeLimitExceeded` delivered at the soft time limit;
`hardTimeLimit` is the hard-limit case where Celery kills the worker process
during the call, so no code after the call runs. -/
inductive EngineOutcome where
  | ok (result : String)
  | exc (msg : String)
  | hardTimeLimit
deriving Repr, DecidableEq

/-- The dictionaries returned by `analyze_financial_document_task`. -/
inductive TaskReturn where
  | notFound
  | completed (task_id result : String)
  | failed (task_id error : String)
deriving Repr, DecidableEq

/-- Observable outcome of one delivery of the worker task: the committed
task table afterwards, whether `run_crew` was invoked, and the value the
task returned (`none` when the worker process was killed by the hard
time limit, so there is no return value). -/
structure WorkerRun where
  db : List AnalysisTask
  engineInvoked : Bool
  ret : Option TaskReturn
deriving Repr, DecidableEq

/-- `analyze_financial_document_task` (`celery_app.py`).  `tasks` is the
committed task table when the delivery starts, `task_id` the message
payload, `request_id` is `self.request.id`, `t1` the tick at which
`datetime.utcnow()` is read before the first commit, `engine` the outcome
of the `run_crew` call, `t2` the tick read when the outcome is recorded,
and `tb` the `traceback.format_exc()` text appended to the error message
in the `except` branch. -/
def analyze_financial_document_task (tasks : List AnalysisTask)
    (task_id request_id : String) (t1 : Nat) (engine : EngineOutcome)
    (t2 : Nat) (tb : String) : WorkerRun :=
  match findTask tasks task_id with
  | none => ⟨tasks, false, some .notFound⟩
  | some task_record =>
      let rec1 := { task_record with
        status := "processing", started_at := some t1,
        celery_task_id := some request_id }
      let db1 := updateTask tasks rec1
      match engine with
      | .hardTimeLimit => ⟨db1, true, none⟩
      | .ok result =>
          let rec2 := { rec1 with
            analysis_result := some result, status := "completed",
            completed_at := some t2, duration_seconds := some (t2 - t1) }
          ⟨updateTask db1 rec2, true, some (.completed task_id result)⟩
      | .exc msg =>
          let rec2 := { rec1 with
            status := "failed", error_message := some (msg ++ "\n" ++ tb),
            completed_at := some t2, duration_seconds := some (t2 - t1) }
          ⟨updateTask db1 rec2, true, some (.failed task_id msg)⟩

/-! ### Submission endpoint (`main.py`, `analyze_document`) -/

/-- The default query from the `Form(default=…)` declaration and the
in-handler empty-query fallback. -/
def default_query : String := "Analyze this financial document for investment insights"

/-- Python's `str.strip()` (used as `query.strip()`): drop whitespace
from both ends. -/
def pyStrip (s : String) : String :=
  ⟨((s.data.dropWhile Char.isWhitespace).reverse.dropWhile Char.isWhitespace).reverse⟩

/-- The uploaded multipart file part. -/
structure UploadFileReq where
  filename : String
  content : String
deriving Repr, DecidableEq

/-- Outcome of `analyze_financial_document_task.delay(…)`: the enqueue
returns a Celery id, or raises (broker unavailable — an infrastructure
failure). -/
inductive EnqueueOutcome where
  | ok (celery_id : String)
  | fail (msg : String)
deriving Repr, DecidableEq

/-- The submission endpoint's responses: the success body, FastAPI's
422 rejection of a request missing the required `File(...)` part
(the handler body never runs), or the `HTTPException(status_code=500)`
raised by the handler's `except` clause. -/
inductive SubmitResponse where
  | queued (task_id celery_task_id : String)
  | validationError
  | httpError (code : Nat)
deriving Repr, DecidableEq

/-- Writing the uploaded bytes to `file_path` (overwrites, so the path
set gains at most one entry). -/
def saveFile (files : List String) (p : String) : List String :=
  if files.contains p then files else p :: files

/-- `analyze_document` (`main.py`, route `POST /analyze`).  `file` is the
multipart file part (`none` when the client omitted it; FastAPI then
rejects the request before the handler runs, since the parameter is the
required `File(...)`), `query` the form field (`none` when omitted, in
which case FastAPI supplies `default_query`), `new_task_id` the fresh
primary key minted for the row, `now` the `datetime.utcnow()` tick,
`enq` the outcome of the enqueue call, `file_id` the generated uuid
embedded in the saved file's path, and `history_id` the fresh primary
key of the history row. -/
def analyze_document (db : Database) (file : Option UploadFileReq)
    (query : Option String) (new_task_id : String) (now : Nat)
    (enq : EnqueueOutcome) (file_id history_id : String) :
    Database × SubmitResponse :=
  match file with
  | none => (db, .validationError)
  | some f =>
      let file_path := "data/financial_document_" ++ file_id ++ ".pdf"
      let db0 := { db with files := saveFile db.files file_path }
      let q := match query with
               | none => default_query
               | some s => if s = "" then default_query else s
      let task_record : AnalysisTask :=
        { id := new_task_id, file_name := f.filename,
          file_path := some file_path, query := pyStrip q,
          status := "pending", created_at := now }
      let db1 := { db0 with tasks := db0.tasks ++ [task_record] }
      match enq with
      | .fail _ => (db1, .httpError 500)
      | .ok cid =>
          let rec1 := { task_record with celery_task_id := some cid }
          let db2 := { db0 with tasks := db0.tasks ++ [rec1] }
          let db3 := { db2 with history := db2.history ++
            [{ id := history_id, analysis_task_id := new_task_id,
               document_name := f.filename }] }
          (db3, .queued new_task_id cid)

/-! ### Listing endpoint (`main.py`, `list_tasks`) -/

/-- The `ORDER BY created_at DESC` comparison. -/
def created_desc (a b : AnalysisTask) : Bool :=
  decide (b.created_at ≤ a.created_at)

/-- Default of the `limit` query parameter of `GET /tasks`. -/
def list_tasks_default_limit : Nat := 50

/-- `list_tasks` (`main.py`, route `GET /tasks`): optional status filter
(Python's `if status:` — an absent or empty string applies no filter),
then `ORDER BY created_at DESC`, then `LIMIT limit`. -/
def list_tasks (tasks : List AnalysisTask) (status : Option String)
    (limit : Nat) : List AnalysisTask :=
  let q := match status with
           | some s => if s = "" then tasks
                       else tasks.filter (fun t => t.status == s)
           | none => tasks
  (q.mergeSort created_desc).take limit

/-! ### Retention sweep (`manage_db.py`, `cleanup_old_tasks`) -/

/-- One deletion performed by the sweep, in the order the code issues
them. -/
inductive SweepEffect where
  | file (path : String)
  | history (id : String)
  | metrics (id : String)
  | job (id : String)
deriving Repr, DecidableEq

/-- Whether a sweep effect is the deletion of the Job row itself. -/
def SweepEffect.isJob : SweepEffect → Bool
  | .job _ => true
  | _ => false

/-- The sweep's selection predicate:
`status == "completed" AND completed_at < cutoff` (a SQL comparison with
`NULL` selects nothing). -/
def isOldCompleted (cutoff : Nat) (t : AnalysisTask) : Bool :=
  t.status == "completed" &&
    (match t.completed_at with
     | some c => decide (c < cutoff)
     | none => false)

/-- The `if task.file_path and os.path.exists(task.file_path):
os.remove(...)` step of the loop body: remove the stored file when the
task has a path and the file exists, reporting the deletion issued. -/
def sweepFileStep (files : List String) (fp : Option String) :
    List String × List SweepEffect :=
  match fp with
  | some p => if files.contains p
              then (files.erase p, [SweepEffect.file p])
              else (files, [])
  | none => (files, [])

/-- The body of the per-task loop in `cleanup_old_tasks`: remove the
stored file if it exists, delete the matching history rows, then the
matching metrics rows, then the task row, returning the new state and
the deletions in the order they are issued. -/
def sweepOne (db : Database) (t : AnalysisTask) : Database × List SweepEffect :=
  let fileStep : List String × List SweepEffect :=
    sweepFileStep db.files t.file_path
  let oldHistory := db.history.filter (fun h => h.analysis_task_id == t.id)
  let history1 := db.history.filter (fun h => !(h.analysis_task_id == t.id))
  let oldMetrics := db.metrics.filter (fun m => m.analysis_task_id == t.id)
  let metrics1 := db.metrics.filter (fun m => !(m.analysis_task_id == t.id))
  let tasks1 := db.tasks.filter (fun u => !(u.id == t.id))
  (⟨tasks1, history1, metrics1, fileStep.1⟩,
    fileStep.2 ++ oldHistory.map (fun h => SweepEffect.history h.id)
      ++ oldMetrics.map (fun m => SweepEffect.metrics m.id)
      ++ [SweepEffect.job t.id])

/-- The `for task in old_tasks:` loop. -/
def sweepAll (db : Database) : List AnalysisTask → Database × List SweepEffect
  | [] => (db, [])
  | t :: ts =>
      let s1 := sweepOne db t
      let s2 := sweepAll s1.1 ts
      (s2.1, s1.2 ++ s2.2)

/-- `cleanup_old_tasks` (`manage_db.py`): select the completed tasks
whose `completed_at` is before `now - days`; if none, return without
touching anything; otherwise sweep each selected task. -/
def cleanup_old_tasks (db : Database) (now days : Nat) :
    Database × List SweepEffect :=
  let cutoff := now - days
  let old := db.tasks.filter (isOldCompleted cutoff)
  if old.isEmpty then (db, [])
  else sweepAll db old

/-! ### A concrete end-to-end scenario

A single submission followed by worker deliveries, used to evaluate the
embedded operations at explicit inputs. -/

/-- A concrete uploaded document. -/
def sampleUpload : UploadFileReq := ⟨"report.pdf", "PDFBYTES"⟩

/-- Store state after one successful submission of `sampleUpload` with
query `"summarize"`: one `pending` task `"T1"`. -/
def submittedDb : Database :=
  (analyze_document {} (some sampleUpload) (some "summarize") "T1" 0
    (.ok "CEL1") "F1" "H1").1

/-- First delivery of `"T1"`: the engine succeeds, the job completes. -/
def runFirst : WorkerRun :=
  analyze_financial_document_task submittedDb.tasks "T1" "W1" 1
    (.ok "analysis text") 2 "tb"

/-- Duplicate delivery of `"T1"` after completion; the engine would
succeed again. -/
def runDuplicate : WorkerRun :=
  analyze_financial_document_task runFirst.db "T1" "W2" 3
    (.ok "analysis text 2") 4 "tb"

/-- Delivery of already-completed `"T1"` during which the worker is
killed by the hard time limit. -/
def runRegress : WorkerRun :=
  analyze_financial_document_task runFirst.db "T1" "W2" 3 .hardTimeLimit 4 "tb"

/-- Delivery of already-completed `"T1"` during which the engine raises. -/
def runConflict : WorkerRun :=
  analyze_financial_document_task runFirst.db "T1" "W2" 3 (.exc "boom") 4 "tb"

/-- First delivery of pending `"T1"`, killed by the hard time limit at
tick `1 + task_time_limit`. -/
def runHardTimeout : WorkerRun :=
  analyze_financial_document_task submittedDb.tasks "T1" "W1" 1
    .hardTimeLimit (1 + task_time_limit) "tb"

/-- First delivery of pending `"T1"` on which the worker crashes
mid-call (hard kill), leaving the job `processing` with
`started_at = 1`. -/
def runCrashMid : WorkerRun :=
  analyze_financial_document_task submittedDb.tasks "T1" "W1" 1
    .hardTimeLimit 2 "tb"

/-- Redelivery of the in-flight `"T1"` to a second worker at tick 5. -/
def runRedeliver : WorkerRun :=
  analyze_financial_document_task runCrashMid.db "T1" "W2" 5 (.ok "res") 6 "tb"

/-- C1: the claim says a duplicate delivery of an already-`Completed`
job's message is a no-op (record unchanged, engine not invoked again).
The code has no terminal-state guard: on the duplicate delivery of the
completed job `"T1"` it invokes the analysis engine again and changes
the job record (new `started_at`, `celery_task_id`, result and
timestamps), refuting the claim. -/
theorem duplicate_delivery_of_completed_job_not_noop :
    (findTask runFirst.db "T1").map (fun t => t.status) = some "completed" ∧
    runDuplicate.engineInvoked = true ∧
    runDuplicate.db ≠ runFirst.db := by decide

/-- C2: the claim says the job state never regresses (in particular a
terminal job never returns to `Processing`) and that an illegal event is
rejected, never silently applied.  In the code, a redelivery of the
completed job `"T1"` is silently applied: the first commit of the worker
task puts the terminal job back into `processing` (observed here when
the worker is then killed mid-call), refuting the claim. -/
theorem completed_job_regresses_to_processing :
    (findTask runFirst.db "T1").map (fun t => t.status) = some "completed" ∧
    (findTask runRegress.db "T1").map (fun t => t.status) = some "processing" := by decide

/-- C3: the claim says no job record ever has both `analysis_result` and
`error_message` set.  Starting from the completed job `"T1"` (which has
`analysis_result` set), a redelivery on which the engine raises ends
with the record in state `failed` carrying BOTH the old
`analysis_result` and the new `error_message` (the success fields are
never cleared), refuting the claim. -/
theorem completed_then_failed_has_result_and_error :
    (findTask runConflict.db "T1").map
        (fun t => (t.status, t.analysis_result, t.error_message)) =
      some ("failed", some "analysis text", some ("boom" ++ "\n" ++ "tb")) := by decide

/-- C4: the claim says a job whose engine invocation exceeds the hard
time limit ends in `Failed` with cause `Timeout` and `completed_at` set.
In the code the hard limit kills the worker process during the call, so
nothing after the call runs: the job `"T1"` stays in `processing` with
no `error_message` and no `completed_at`, and the task produces no
return value, refuting the claim. -/
theorem hard_time_limit_leaves_job_processing :
    runHardTimeout.ret = none ∧
    (findTask runHardTimeout.db "T1").map
        (fun t => (t.status, t.error_message, t.completed_at)) =
      some ("processing", none, none) := by decide

/-- C7: the claim says `started_at` is set exactly once, at the first
`Pending → Processing` transition, and kept unchanged when a job already
in `Processing` is redelivered.  In the code every delivery overwrites
`started_at`: job `"T1"` enters `processing` at tick 1, and its
redelivery at tick 5 overwrites `started_at` to 5, refuting the claim. -/
theorem redelivery_overwrites_started_at :
    (findTask runCrashMid.db "T1").map (fun t => t.started_at) = some (some 1) ∧
    (findTask runRedeliver.db "T1").map (fun t => t.started_at) = some (some 5) := by decide

/-! ### Worker failure recording (C9) and submission-path claims (C6, C8) -/

/-- A row found by primary key matches the key. -/
theorem findTask_id_beq {tasks : List AnalysisTask} {task_id : String}
    {r : AnalysisTask} (h : findTask tasks task_id = some r) :
    (r.id == task_id) = true := by
  simp only [findTask] at h
  have h2 := List.find?_some h
  exact h2

/-- After committing an update of the row that a primary-key lookup
found, the same lookup returns the updated row. -/
theorem findTask_updateTask {tasks : List AnalysisTask} {task_id : String}
    {old r : AnalysisTask} (hfind : findTask tasks task_id = some old)
    (hid : r.id = old.id) :
    findTask (updateTask tasks r) task_id = some r := by
  induction tasks with
  | nil => simp [findTask] at hfind
  | cons t ts ih =>
      have hold : (old.id == task_id) = true := findTask_id_beq hfind
      by_cases hpred : (t.id == task_id) = true
      · have hto : t = old := by
          simp only [findTask, List.find?] at hfind
          rw [hpred] at hfind
          exact Option.some_injective _ hfind
        have hhead : (t.id == r.id) = true := by
          subst hto; simp [hid]
        simp only [findTask, updateTask, List.map, List.find?, hhead, if_pos rfl]
        have : (r.id == task_id) = true := by
          rw [hid]; subst hto; exact hpred
        simp [this]
      · have htail : findTask ts task_id = some old := by
          simp only [findTask, List.find?] at hfind ⊢
          rw [eq_false_of_ne_true hpred] at hfind
          exact hfind
        by_cases hhead : (t.id == r.id) = true
        · have hr : (r.id == task_id) = true := by rw [hid]; exact hold
          simp only [findTask, updateTask, List.map, List.find?, hhead, if_pos rfl]
          simp [hr]
        · simp only [findTask, updateTask, List.map, List.find?]
          rw [if_neg (by simpa using hhead)]
          rw [eq_false_of_ne_true hpred]
          exact ih htail

/-- C9: for every delivery on which the analysis engine raises an
exception (engine error, malformed input, soft-limit signal, any other
exception), and whose job record exists, the worker task records the
failure on the job record — state `failed`, `error_message` set to the
exception text with traceback, `completed_at` set — and returns the
normal `failed` dictionary instead of propagating the exception. -/
theorem worker_exception_recorded_and_returned
    (tasks : List AnalysisTask) (task_id request_id : String)
    (t1 : Nat) (msg : String) (t2 : Nat) (tb : String)
    (old : AnalysisTask) (hfind : findTask tasks task_id = some old) :
    ∃ r, findTask (analyze_financial_document_task tasks task_id request_id
                      t1 (.exc msg) t2 tb).db task_id = some r ∧
      r.status = "failed" ∧
      r.error_message = some (msg ++ "\n" ++ tb) ∧
      r.completed_at = some t2 ∧
      (analyze_financial_document_task tasks task_id request_id
          t1 (.exc msg) t2 tb).ret = some (.failed task_id msg) := by
  unfold analyze_financial_document_task
  rw [hfind]
  exact ⟨_, findTask_updateTask (findTask_updateTask hfind rfl) rfl,
    rfl, rfl, rfl, rfl⟩

/-- Witness for C9 at a concrete input: the pending job `"T1"` exists in
`submittedDb`, the engine raises `"boom"`, and the task returns the
normal `failed` dictionary. -/
theorem worker_exception_recorded_and_returned_witness :
    (analyze_financial_document_task submittedDb.tasks "T1" "W1" 1
        (.exc "boom") 2 "tb").ret = some (.failed "T1" "boom") := by
  obtain ⟨r, h1, h2, h3, h4, h5⟩ :=
    worker_exception_recorded_and_returned submittedDb.tasks "T1" "W1" 1
      "boom" 2 "tb"
      { id := "T1", file_name := "report.pdf",
        file_path := some "data/financial_document_F1.pdf",
        query := "summarize", status := "pending", created_at := 0,
        celery_task_id := some "CEL1" }
      (by decide)
  exact h5

/-- C8: when the enqueue step fails after the job row has been created
and committed, the handler neither deletes nor rolls back the row: the
store keeps the new job in state `pending` (with no dispatch token), and
the caller receives the 500 infrastructure error. -/
theorem enqueue_failure_leaves_pending_job
    (db : Database) (f : UploadFileReq) (query : Option String)
    (new_task_id : String) (now : Nat) (msg : String)
    (file_id history_id : String) :
    ∃ r, (analyze_document db (some f) query new_task_id now
            (.fail msg) file_id history_id).1.tasks = db.tasks ++ [r] ∧
      r.id = new_task_id ∧ r.status = "pending" ∧
      r.celery_task_id = none ∧
      (analyze_document db (some f) query new_task_id now
          (.fail msg) file_id history_id).2 = .httpError 500 :=
  ⟨_, rfl, rfl, rfl, rfl, rfl⟩

/-- C6 counterexample: the claim says a submission whose query is
missing or empty is rejected with a validation error before any job
record is created.  At the concrete input below the query is the empty
string, yet the submission succeeds (`queued`) and a job record IS
created, refuting the claim. -/
theorem empty_query_submission_creates_job :
    (analyze_document {} (some sampleUpload) (some "") "T1" 0
        (.ok "CEL1") "F1" "H1").2 = .queued "T1" "CEL1" ∧
    ((analyze_document {} (some sampleUpload) (some "") "T1" 0
        (.ok "CEL1") "F1" "H1").1).tasks.length = 1 := by decide

/-- The default query carries no surrounding whitespace, so stripping
it is the identity. -/
theorem pyStrip_default_query : pyStrip default_query = default_query := by
  decide

/-- C6 (amended): a submission with the document part missing is
rejected with a validation error before any job record is created (the
store is untouched); a submission whose query is missing or empty is
NOT rejected — the query is replaced by the default query and a job
record is created normally. -/
theorem missing_document_rejected_and_empty_query_defaulted :
    (∀ db query new_task_id now enq file_id history_id,
        analyze_document db none query new_task_id now enq
          file_id history_id = (db, .validationError)) ∧
    (∀ db (f : UploadFileReq) new_task_id now celery_id file_id
        history_id (query : Option String),
        (query = none ∨ query = some "") →
        ∃ r, (analyze_document db (some f) query new_task_id now
                (.ok celery_id) file_id history_id).1.tasks
              = db.tasks ++ [r] ∧
          r.id = new_task_id ∧ r.status = "pending" ∧
          r.query = default_query ∧
          (analyze_document db (some f) query new_task_id now
              (.ok celery_id) file_id history_id).2
            = .queued new_task_id celery_id) := by
  constructor
  · intro db query new_task_id now enq file_id history_id
    rfl
  · intro db f new_task_id now celery_id file_id history_id query hq
    rcases hq with h | h <;> subst h <;>
      exact ⟨_, rfl, rfl, rfl, pyStrip_default_query, rfl⟩

/-- Witness for C6 at a concrete input: a submission with query omitted
is queued (a job is created), via the amended theorem. -/
theorem missing_document_rejected_and_empty_query_defaulted_witness :
    (analyze_document {} (some sampleUpload) none "T2" 0
        (.ok "CEL2") "F2" "H2").2 = .queued "T2" "CEL2" := by
  obtain ⟨r, h1, h2, h3, h4, h5⟩ :=
    missing_document_rejected_and_empty_query_defaulted.2 {} sampleUpload
      "T2" 0 "CEL2" "F2" "H2" none (Or.inl rfl)
  exact h5

/-! ### Retention-sweep claims (C5) -/

/-- A failed job whose `completed_at` (tick 2) is far older than the
retention window. -/
def failedOldTask : AnalysisTask :=
  { id := "TF", file_name := "r.pdf", query := "q", status := "failed",
    created_at := 0, started_at := some 1, completed_at := some 2,
    error_message := some "boom", duration_seconds := some 1 }

/-- A store holding only `failedOldTask`. -/
def failedOldDb : Database := { tasks := [failedOldTask] }

/-- C5 counterexample: the claim says the sweep deletes exactly the
terminal (`Completed` or `Failed`) jobs older than the retention window.
At the concrete input below, a `failed` job completed at tick 2 is far
older than the window (`now = 100`, `days = 30`, cutoff 70), yet the
sweep deletes nothing — the selection only matches
`status == "completed"` — refuting the claim. -/
theorem old_failed_task_not_swept :
    cleanup_old_tasks failedOldDb 100 30 = (failedOldDb, []) := by decide

/-- The task table after a sweep pass over `ts`: every row whose id
matches a swept task is removed. -/
theorem sweepAll_tasks (ts : List AnalysisTask) (db : Database) :
    ((sweepAll db ts).1).tasks
      = db.tasks.filter (fun u => ts.all (fun t => !(u.id == t.id))) := by
  induction ts generalizing db with
  | nil => simp [sweepAll]
  | cons t ts ih =>
      show ((sweepAll (sweepOne db t).1 ts).1).tasks = _
      rw [ih]
      show ((db.tasks.filter (fun u => !(u.id == t.id))).filter
        (fun u => ts.all (fun t => !(u.id == t.id)))) = _
      rw [List.filter_filter]
      apply List.filter_congr
      intro u _
      simp [Bool.and_comm]

/-- Under unique primary keys, a row survives the removal of all
selected rows exactly when it is not itself selected. -/
theorem all_not_old_iff (tasksL : List AnalysisTask)
    (p : AnalysisTask → Bool)
    (hnodup : (tasksL.map (fun t => t.id)).Nodup)
    (u : AnalysisTask) (hu : u ∈ tasksL) :
    ((tasksL.filter p).all (fun t => !(u.id == t.id))) = !(p u) := by
  by_cases hp : p u = true
  · have hmem : u ∈ tasksL.filter p := List.mem_filter.mpr ⟨hu, hp⟩
    cases hall : (tasksL.filter p).all (fun t => !(u.id == t.id)) with
    | false => simp [hp]
    | true =>
        exfalso
        have hcontra := (List.all_eq_true.mp hall) u hmem
        simp at hcontra
  · have hpu : p u = false := by
      cases hcase : p u with
      | false => rfl
      | true => exact absurd hcase hp
    rw [hpu]
    simp only [Bool.not_false]
    rw [List.all_eq_true]
    intro t ht
    rcases List.mem_filter.mp ht with ⟨htl, hpt⟩
    have hne : u.id ≠ t.id := by
      intro heq
      have heq2 : u = t := List.inj_on_of_nodup_map hnodup hu htl heq
      rw [heq2] at hpu
      rw [hpu] at hpt
      exact Bool.false_ne_true hpt
    simp [hne]

/-- The file step issues either no deletion (no path, or file already
gone) or exactly the deletion of the task's stored document. -/
theorem sweepFileStep_effects (files : List String) (fp : Option String) :
    (sweepFileStep files fp).2 = []
      ∨ ∃ p, fp = some p ∧ (sweepFileStep files fp).2 = [SweepEffect.file p] := by
  rcases fp with _ | p
  · exact Or.inl rfl
  · by_cases hc : files.contains p = true
    · refine Or.inr ⟨p, rfl, ?_⟩
      show (if files.contains p then (files.erase p, [SweepEffect.file p])
          else (files, [])).2 = [SweepEffect.file p]
      rw [if_pos hc]
    · refine Or.inl ?_
      show (if files.contains p then (files.erase p, [SweepEffect.file p])
          else (files, [])).2 = []
      rw [if_neg hc]

/-- The file step never adds stored files. -/
theorem sweepFileStep_subset (files : List String) (fp : Option String) :
    (sweepFileStep files fp).1 ⊆ files := by
  rcases fp with _ | p
  · exact fun x hx => hx
  · show (if files.contains p then (files.erase p, [SweepEffect.file p])
        else (files, [])).1 ⊆ files
    by_cases hc : files.contains p = true
    · rw [if_pos hc]
      exact List.erase_subset p files
    · rw [if_neg hc]
      exact fun x hx => hx

/-- The file step keeps the stored-file set duplicate-free. -/
theorem sweepFileStep_nodup (files : List String) (fp : Option String)
    (hnd : files.Nodup) : (sweepFileStep files fp).1.Nodup := by
  rcases fp with _ | p
  · exact hnd
  · show (if files.contains p then (files.erase p, [SweepEffect.file p])
        else (files, [])).1.Nodup
    by_cases hc : files.contains p = true
    · rw [if_pos hc]
      exact hnd.erase p
    · rw [if_neg hc]
      exact hnd

/-- After the file step for a task with stored path `p`, the path `p`
is no longer in the file set. -/
theorem sweepFileStep_removed (files : List String) (fp : Option String)
    (p : String) (hnd : files.Nodup) (hp : fp = some p) :
    p ∉ (sweepFileStep files fp).1 := by
  subst hp
  show p ∉ (if files.contains p then (files.erase p, [SweepEffect.file p])
      else (files, [])).1
  by_cases hc : files.contains p = true
  · rw [if_pos hc]
    intro hmem
    exact absurd (hnd.mem_erase_iff.mp hmem).1 (by simp)
  · rw [if_neg hc]
    intro hmem
    exact hc (List.elem_iff.mpr hmem)

/-- The deletions issued for a single swept task: the stored-document
deletion (exactly when the task has a file path and the file is still
present), then one deletion per matching History row, then one per
matching Metrics row, then the deletion of the job row itself. -/
theorem sweepOne_effects (db : Database) (t : AnalysisTask) :
    ∃ fileFx,
      (fileFx = [] ∨ ∃ p, t.file_path = some p ∧ fileFx = [SweepEffect.file p]) ∧
      (sweepOne db t).2 = fileFx
        ++ (db.history.filter (fun h => h.analysis_task_id == t.id)).map
             (fun h => SweepEffect.history h.id)
        ++ (db.metrics.filter (fun m => m.analysis_task_id == t.id)).map
             (fun m => SweepEffect.metrics m.id)
        ++ [SweepEffect.job t.id] :=
  ⟨(sweepFileStep db.files t.file_path).2,
    sweepFileStep_effects db.files t.file_path, rfl⟩

/-- The History table after a sweep pass over `ts`: exactly the rows
referencing a swept task are removed. -/
theorem sweepAll_history (ts : List AnalysisTask) (db : Database) :
    ((sweepAll db ts).1).history
      = db.history.filter
          (fun h => ts.all (fun t => !(h.analysis_task_id == t.id))) := by
  induction ts generalizing db with
  | nil => simp [sweepAll]
  | cons t ts ih =>
      show ((sweepAll (sweepOne db t).1 ts).1).history = _
      rw [ih]
      show ((db.history.filter (fun h => !(h.analysis_task_id == t.id))).filter
        (fun h => ts.all (fun t => !(h.analysis_task_id == t.id)))) = _
      rw [List.filter_filter]
      apply List.filter_congr
      intro h _
      simp [Bool.and_comm]

/-- The Metrics table after a sweep pass over `ts`: exactly the rows
referencing a swept task are removed. -/
theorem sweepAll_metrics (ts : List AnalysisTask) (db : Database) :
    ((sweepAll db ts).1).metrics
      = db.metrics.filter
          (fun m => ts.all (fun t => !(m.analysis_task_id == t.id))) := by
  induction ts generalizing db with
  | nil => simp [sweepAll]
  | cons t ts ih =>
      show ((sweepAll (sweepOne db t).1 ts).1).metrics = _
      rw [ih]
      show ((db.metrics.filter (fun m => !(m.analysis_task_id == t.id))).filter
        (fun m => ts.all (fun t => !(m.analysis_task_id == t.id)))) = _
      rw [List.filter_filter]
      apply List.filter_congr
      intro m _
      simp [Bool.and_comm]

/-- Sweeping one task never adds stored files. -/
theorem sweepOne_files_subset (db : Database) (t : AnalysisTask) :
    ((sweepOne db t).1).files ⊆ db.files :=
  sweepFileStep_subset db.files t.file_path

/-- A sweep pass never adds stored files. -/
theorem sweepAll_files_subset : ∀ (ts : List AnalysisTask) (db : Database),
    ((sweepAll db ts).1).files ⊆ db.files := by
  intro ts
  induction ts with
  | nil => exact fun db x hx => hx
  | cons t ts ih =>
      intro db x hx
      exact sweepOne_files_subset db t (ih (sweepOne db t).1 hx)

/-- Sweeping one task keeps the stored-file set duplicate-free. -/
theorem sweepOne_files_nodup (db : Database) (t : AnalysisTask)
    (hnd : db.files.Nodup) : ((sweepOne db t).1).files.Nodup :=
  sweepFileStep_nodup db.files t.file_path hnd

/-- Sweeping a task removes its stored document from the file set. -/
theorem sweepOne_file_removed (db : Database) (t : AnalysisTask)
    (hnd : db.files.Nodup) (p : String) (hp : t.file_path = some p) :
    p ∉ ((sweepOne db t).1).files :=
  sweepFileStep_removed db.files t.file_path p hnd hp

/-- After a sweep pass, no swept task's stored document remains in the
file set (whether or not it was still present when its turn came). -/
theorem sweepAll_file_removed (t : AnalysisTask) (p : String)
    (hp : t.file_path = some p) :
    ∀ (ts : List AnalysisTask) (db : Database), db.files.Nodup → t ∈ ts →
      p ∉ ((sweepAll db ts).1).files := by
  intro ts
  induction ts with
  | nil => intro db _ ht; cases ht
  | cons u ts ih =>
      intro db hnd ht
      rcases List.mem_cons.mp ht with h | h
      · subst h
        intro hmem
        exact sweepOne_file_removed db t hnd p hp
          (sweepAll_files_subset ts (sweepOne db t).1 hmem)
      · exact ih (sweepOne db u).1 (sweepOne_files_nodup db u hnd) h

/-- The deletion trace of a sweep pass over tasks with pairwise-distinct
ids splits into one block per swept task, in order; each block is that
task's stored-document deletion (when the file still exists), then the
deletions of exactly its History rows and exactly its Metrics rows (as
in the pre-sweep store `dbOrig`), then the deletion of its job row. -/
theorem sweepAll_effects (dbOrig : Database) :
    ∀ (ts : List AnalysisTask) (db : Database),
      (ts.map (fun t => t.id)).Nodup →
      (∀ t ∈ ts, db.history.filter (fun h => h.analysis_task_id == t.id)
          = dbOrig.history.filter (fun h => h.analysis_task_id == t.id)) →
      (∀ t ∈ ts, db.metrics.filter (fun m => m.analysis_task_id == t.id)
          = dbOrig.metrics.filter (fun m => m.analysis_task_id == t.id)) →
      ∃ segs : List (List SweepEffect),
        (sweepAll db ts).2 = segs.flatten ∧
        List.Forall₂ (fun (t : AnalysisTask) (seg : List SweepEffect) =>
            ∃ fileFx,
              (fileFx = [] ∨ ∃ p, t.file_path = some p ∧
                  fileFx = [SweepEffect.file p]) ∧
              seg = fileFx
                ++ (dbOrig.history.filter
                      (fun h => h.analysis_task_id == t.id)).map
                     (fun h => SweepEffect.history h.id)
                ++ (dbOrig.metrics.filter
                      (fun m => m.analysis_task_id == t.id)).map
                     (fun m => SweepEffect.metrics m.id)
                ++ [SweepEffect.job t.id]) ts segs := by
  intro ts
  induction ts with
  | nil => exact fun db _ _ _ => ⟨[], rfl, List.Forall₂.nil⟩
  | cons t ts ih =>
      intro db hnodup hhist hmet
      have hid_notin : t.id ∉ ts.map (fun t => t.id) :=
        (List.nodup_cons.mp (by simpa using hnodup)).1
      obtain ⟨fileFx, hfile, hseg⟩ := sweepOne_effects db t
      have hsegO : (sweepOne db t).2 = fileFx
          ++ (dbOrig.history.filter (fun h => h.analysis_task_id == t.id)).map
               (fun h => SweepEffect.history h.id)
          ++ (dbOrig.metrics.filter (fun m => m.analysis_task_id == t.id)).map
               (fun m => SweepEffect.metrics m.id)
          ++ [SweepEffect.job t.id] := by
        rw [hseg, hhist t (List.mem_cons_self t ts),
          hmet t (List.mem_cons_self t ts)]
      have hne : ∀ u ∈ ts, u.id ≠ t.id := by
        intro u hu heq
        exact hid_notin (heq ▸ List.mem_map.mpr ⟨u, hu, rfl⟩)
      have hhist2 : ∀ u ∈ ts,
          ((sweepOne db t).1).history.filter
              (fun h => h.analysis_task_id == u.id)
            = dbOrig.history.filter (fun h => h.analysis_task_id == u.id) := by
        intro u hu
        show ((db.history.filter (fun h => !(h.analysis_task_id == t.id))).filter
            (fun h => h.analysis_task_id == u.id)) = _
        rw [List.filter_filter]
        have hpt : ∀ h ∈ db.history,
            ((h.analysis_task_id == u.id) && !(h.analysis_task_id == t.id))
              = (h.analysis_task_id == u.id) := by
          intro h _
          by_cases hh : h.analysis_task_id = u.id
          · simp [hh, hne u hu]
          · simp [hh]
        rw [List.filter_congr hpt]
        exact hhist u (List.mem_cons_of_mem t hu)
      have hmet2 : ∀ u ∈ ts,
          ((sweepOne db t).1).metrics.filter
              (fun m => m.analysis_task_id == u.id)
            = dbOrig.metrics.filter (fun m => m.analysis_task_id == u.id) := by
        intro u hu
        show ((db.metrics.filter (fun m => !(m.analysis_task_id == t.id))).filter
            (fun m => m.analysis_task_id == u.id)) = _
        rw [List.filter_filter]
        have hpt : ∀ m ∈ db.metrics,
            ((m.analysis_task_id == u.id) && !(m.analysis_task_id == t.id))
              = (m.analysis_task_id == u.id) := by
          intro m _
          by_cases hm : m.analysis_task_id = u.id
          · simp [hm, hne u hu]
          · simp [hm]
        rw [List.filter_congr hpt]
        exact hmet u (List.mem_cons_of_mem t hu)
      obtain ⟨segs, hflat, hrel⟩ := ih (sweepOne db t).1
        ((List.nodup_cons.mp (by simpa using hnodup)).2) hhist2 hmet2
      refine ⟨(sweepOne db t).2 :: segs, ?_,
        List.Forall₂.cons ⟨fileFx, hfile, hsegO⟩ hrel⟩
      show (sweepOne db t).2 ++ (sweepAll (sweepOne db t).1 ts).2 = _
      rw [hflat, List.flatten_cons]

/-- C5 (amended): the retention sweep deletes exactly the `completed`
jobs whose `completed_at` is strictly older than the retention window —
`failed` jobs and jobs completed inside the window are left untouched —
and for each selected job it deletes the stored document (when still
present), all of its History rows and all of its Metrics rows, in that
order, before deleting the Job record itself; rows referencing unswept
jobs are kept.  (Primary keys are unique, as the database enforces, and
the stored-file set is duplicate-free, as a filesystem guarantees.) -/
theorem cleanup_deletes_exactly_old_completed (db : Database)
    (now days : Nat)
    (hids : (db.tasks.map (fun t => t.id)).Nodup)
    (hfiles : db.files.Nodup) :
    (cleanup_old_tasks db now days).1.tasks
      = db.tasks.filter (fun t => !(isOldCompleted (now - days) t)) ∧
    (cleanup_old_tasks db now days).1.history
      = db.history.filter (fun h =>
          (db.tasks.filter (isOldCompleted (now - days))).all
            (fun t => !(h.analysis_task_id == t.id))) ∧
    (cleanup_old_tasks db now days).1.metrics
      = db.metrics.filter (fun m =>
          (db.tasks.filter (isOldCompleted (now - days))).all
            (fun t => !(m.analysis_task_id == t.id))) ∧
    (∀ t ∈ db.tasks.filter (isOldCompleted (now - days)), ∀ p,
        t.file_path = some p →
        p ∉ (cleanup_old_tasks db now days).1.files) ∧
    ∃ segs : List (List SweepEffect),
      (cleanup_old_tasks db now days).2 = segs.flatten ∧
      List.Forall₂ (fun (t : AnalysisTask) (seg : List SweepEffect) =>
          ∃ fileFx,
            (fileFx = [] ∨ ∃ p, t.file_path = some p ∧
                fileFx = [SweepEffect.file p]) ∧
            seg = fileFx
              ++ (db.history.filter (fun h => h.analysis_task_id == t.id)).map
                   (fun h => SweepEffect.history h.id)
              ++ (db.metrics.filter (fun m => m.analysis_task_id == t.id)).map
                   (fun m => SweepEffect.metrics m.id)
              ++ [SweepEffect.job t.id])
        (db.tasks.filter (isOldCompleted (now - days))) segs := by
  have hcleanup : cleanup_old_tasks db now days
      = if (db.tasks.filter (isOldCompleted (now - days))).isEmpty
        then (db, [])
        else sweepAll db (db.tasks.filter (isOldCompleted (now - days))) := rfl
  by_cases hemp : (db.tasks.filter (isOldCompleted (now - days))).isEmpty = true
  · have hnil : db.tasks.filter (isOldCompleted (now - days)) = [] :=
      List.isEmpty_iff.mp hemp
    rw [hcleanup, if_pos hemp, hnil]
    refine ⟨?_, by simp, by simp, ?_, ⟨[], rfl, List.Forall₂.nil⟩⟩
    · have hall := List.filter_eq_nil_iff.mp hnil
      symm
      rw [List.filter_eq_self]
      intro a ha
      have hna := hall a ha
      simp only [Bool.not_eq_true] at hna
      simp [hna]
    · intro t ht
      cases ht
  · rw [hcleanup, if_neg hemp]
    refine ⟨?_, sweepAll_history _ db, sweepAll_metrics _ db, ?_, ?_⟩
    · rw [sweepAll_tasks]
      apply List.filter_congr
      intro u hu
      exact all_not_old_iff db.tasks _ hids u hu
    · intro t ht p hp
      exact sweepAll_file_removed t p hp _ db hfiles ht
    · exact sweepAll_effects db _ db
        (List.Nodup.sublist
          (List.Sublist.map (fun t => t.id) (List.filter_sublist db.tasks))
          hids)
        (fun t _ => rfl) (fun t _ => rfl)

/-- A concrete store with one old completed job (with document, history
and metrics), and one recently completed job. -/
def sweepWitnessDb : Database :=
  { tasks := [
      { id := "TC", file_name := "a.pdf", file_path := some "data/a.pdf",
        query := "q", status := "completed", created_at := 0,
        started_at := some 1, completed_at := some 2,
        analysis_result := some "r", duration_seconds := some 1 },
      { id := "TR", file_name := "b.pdf", query := "q",
        status := "completed", created_at := 90, started_at := some 95,
        completed_at := some 99, analysis_result := some "r2",
        duration_seconds := some 4 }],
    history := [{ id := "H1", analysis_task_id := "TC",
                  document_name := "a.pdf" }],
    metrics := [{ id := "M1", analysis_task_id := "TC" }],
    files := ["data/a.pdf"] }

/-- Witness for C5 (amended) at a concrete input: on `sweepWitnessDb`
(unique ids and a duplicate-free file set, discharged by evaluation) the
sweep keeps exactly the non-old-completed rows. -/
theorem cleanup_deletes_exactly_old_completed_witness :
    (cleanup_old_tasks sweepWitnessDb 100 30).1.tasks
      = sweepWitnessDb.tasks.filter
          (fun t => !(isOldCompleted (100 - 30) t)) :=
  (cleanup_deletes_exactly_old_completed sweepWitnessDb 100 30
    (by decide) (by decide)).1

/-! ### Listing claims (C10) -/

/-- `created_desc` is transitive. -/
theorem created_desc_trans : ∀ a b c : AnalysisTask,
    created_desc a b = true → created_desc b c = true →
    created_desc a c = true := by
  intro a b c hab hbc
  simp only [created_desc, decide_eq_true_eq] at hab hbc ⊢
  omega

/-- `created_desc` is total. -/
theorem created_desc_total : ∀ a b : AnalysisTask,
    (created_desc a b || created_desc b a) = true := by
  intro a b
  simp only [created_desc, Bool.or_eq_true, decide_eq_true_eq]
  exact Nat.le_total b.created_at a.created_at

/-- C10: the task-listing operation returns at most `limit` rows, the
rows are sorted by `created_at` in descending order, and when a
(non-empty) status filter is provided every returned row matches it. -/
theorem list_tasks_spec (tasks : List AnalysisTask) (status : Option String)
    (limit : Nat) :
    (list_tasks tasks status limit).length ≤ limit ∧
    (list_tasks tasks status limit).Pairwise
      (fun a b => b.created_at ≤ a.created_at) ∧
    ∀ s, status = some s → s ≠ "" →
      ∀ t ∈ list_tasks tasks status limit, t.status = s := by
  refine ⟨?_, ?_, ?_⟩
  · show (List.take limit (List.mergeSort _ created_desc)).length ≤ limit
    rw [List.length_take]
    exact Nat.min_le_left _ _
  · show (List.take limit ((match status with
        | some s => if s = "" then tasks
                    else tasks.filter (fun t => t.status == s)
        | none => tasks).mergeSort created_desc)).Pairwise
          (fun a b => b.created_at ≤ a.created_at)
    have hsorted := List.sorted_mergeSort created_desc_trans created_desc_total
      (match status with
       | some s => if s = "" then tasks
                   else tasks.filter (fun t => t.status == s)
       | none => tasks)
    have hpair := List.Pairwise.sublist (List.take_sublist limit _) hsorted
    refine List.Pairwise.imp ?_ hpair
    intro a b h
    simpa [created_desc] using h
  · intro s hs hne t ht
    subst hs
    have hlist : list_tasks tasks (some s) limit
        = ((tasks.filter (fun t => t.status == s)).mergeSort
            created_desc).take limit := by
      simp [list_tasks, if_neg hne]
    rw [hlist] at ht
    have ht2 := List.take_subset _ _ ht
    rw [List.mem_mergeSort] at ht2
    have hstatus := (List.mem_filter.mp ht2).2
    simpa using hstatus

/-- Witness for C10 at a concrete input: listing with limit 1 returns at
most one row. -/
theorem list_tasks_spec_witness :
    (list_tasks submittedDb.tasks (some "pending") 1).length ≤ 1 :=
  (list_tasks_spec submittedDb.tasks (some "pending") 1).1
